import Mathlib

set_option autoImplicit false

/-!
Verification of the duplex streaming client (src/client/client.py).

The embedding below models, from the source:
  - the AudioPlayer class (play_audio worker loop, start_playing, stop_playing)
    as an explicit state machine: the worker is a program-counter automaton
    stepped by play_audio_step, the controller operations are atomic state
    transformers (they are only ever invoked from the single receive task);
  - the text-frame branch of receive_message as a function from the frame to
    the ordered list of calls it performs;
  - the mode-selection branch of start_client;
  - the join behaviour of awaiting asyncio.gather over the two session tasks.

Wave buffers are abstracted to a decodability bit (WaveObject.from_wave_file
either succeeds or raises) plus a playback duration in polling ticks.
-/

namespace RealCharClient

/-- A wav buffer handed to the player: whether WaveObject.from_wave_file can
decode it, and for how many 0.1s polling ticks it sounds when played. -/
structure Buffer where
  decodable : Bool
  duration : Nat
deriving DecidableEq

/-- Program counter of the play_audio worker thread.
loopHead: at the top of the while loop; playing n: inside the inner
is_playing polling loop with n ticks of sound remaining; finished: the while
condition came out false and the thread returned; crashed: an undecodable
buffer made WaveObject.from_wave_file raise and the thread died on the
unhandled exception. -/
inductive WorkerPC where
  | loopHead
  | playing (remaining : Nat)
  | finished
  | crashed
deriving DecidableEq

/-- Thread.is_alive for the worker: true until it returns or dies on an
unhandled exception. -/
def isAlive : WorkerPC → Bool
  | WorkerPC.loopHead => true
  | WorkerPC.playing _ => true
  | WorkerPC.finished => false
  | WorkerPC.crashed => false

/-- One step of the play_audio worker loop, given the current value of the
shared stop_flag. At the loop head the condition is
`not stop_flag or not queue.empty`; a get_nowait on an empty queue raises
queue.Empty which the loop catches and continues; a dequeued undecodable
buffer kills the thread (from_wave_file is not guarded by any handler); a
decodable one starts sounding. While playing, each step is one 0.1s poll of
`play_obj.is_playing() and not stop_flag`; when the poll fails the item is
halted if stop_flag is set, and control returns to the loop head. -/
def play_audio_step (stopFlag : Bool) : WorkerPC × List Buffer → WorkerPC × List Buffer
  | (WorkerPC.loopHead, q) =>
    if !stopFlag || !q.isEmpty then
      match q with
      | [] => (WorkerPC.loopHead, [])
      | b :: rest =>
        if b.decodable then (WorkerPC.playing b.duration, rest)
        else (WorkerPC.crashed, rest)
    else (WorkerPC.finished, q)
  | (WorkerPC.playing n, q) =>
    if stopFlag then (WorkerPC.loopHead, q)
    else
      match n with
      | 0 => (WorkerPC.loopHead, q)
      | m + 1 => (WorkerPC.playing m, q)
  | (WorkerPC.finished, q) => (WorkerPC.finished, q)
  | (WorkerPC.crashed, q) => (WorkerPC.crashed, q)

/-- Run the worker for a bounded number of steps with stop_flag held true,
stopping early once the thread is no longer alive. -/
def joinFuel : Nat → WorkerPC × List Buffer → WorkerPC × List Buffer
  | 0, s => s
  | n + 1, s => if isAlive s.1 then joinFuel n (play_audio_step true s) else s

/-- Thread.join as seen from stop_playing: with stop_flag true the worker
needs at most 2·|queue| + 2 steps to terminate, so running that many steps
is the join. -/
def join_after_stop (s : WorkerPC × List Buffer) : WorkerPC × List Buffer :=
  joinFuel (2 * s.2.length + 2) s

/-- Run the worker with stop_flag false (no stop requested). -/
def runNoStop : Nat → WorkerPC × List Buffer → WorkerPC × List Buffer
  | 0, s => s
  | n + 1, s => runNoStop n (play_audio_step false s)

theorem play_audio_step_dead (flag : Bool) (s : WorkerPC × List Buffer)
    (h : isAlive s.1 = false) : play_audio_step flag s = s := by
  obtain ⟨pc, q⟩ := s
  cases pc with
  | loopHead => simp [isAlive] at h
  | playing n => simp [isAlive] at h
  | finished => rfl
  | crashed => rfl

theorem joinFuel_dead (n : Nat) (s : WorkerPC × List Buffer)
    (h : isAlive s.1 = false) : joinFuel n s = s := by
  cases n with
  | zero => rfl
  | succ n => simp [joinFuel, h]

theorem joinFuel_succ (n : Nat) (s : WorkerPC × List Buffer) (h : isAlive s.1 = true) :
    joinFuel (n + 1) s = joinFuel n (play_audio_step true s) := by
  simp [joinFuel, h]

theorem joinFuel_add (n m : Nat) (s : WorkerPC × List Buffer) :
    joinFuel (n + m) s = joinFuel m (joinFuel n s) := by
  induction n generalizing s with
  | zero => simp [joinFuel]
  | succ n ih =>
    have hnm : n + 1 + m = n + m + 1 := by omega
    rw [hnm]
    cases hval : isAlive s.1 with
    | true =>
      simp only [joinFuel, hval, if_true]
      exact ih (play_audio_step true s)
    | false =>
      rw [joinFuel_dead (n + m + 1) s hval, joinFuel_dead (n + 1) s hval,
        joinFuel_dead m s hval]

theorem joinFuel_loopHead_dead (q : List Buffer) :
    isAlive (joinFuel (2 * q.length + 1) (WorkerPC.loopHead, q)).1 = false := by
  induction q with
  | nil => decide
  | cons b rest ih =>
    have h3 : 2 * (b :: rest).length + 1 = 2 * rest.length + 1 + 1 + 1 := by
      simp only [List.length_cons]
      omega
    rw [h3]
    cases hd : b.decodable with
    | true =>
      simpa [joinFuel, play_audio_step, isAlive, hd] using ih
    | false =>
      have hstep : play_audio_step true (WorkerPC.loopHead, b :: rest) =
          (WorkerPC.crashed, rest) := by
        simp [play_audio_step, hd]
      rw [show 2 * rest.length + 1 + 1 + 1 = 2 * rest.length + 2 + 1 by omega,
        joinFuel_succ (2 * rest.length + 2) (WorkerPC.loopHead, b :: rest) rfl, hstep,
        joinFuel_dead (2 * rest.length + 2) (WorkerPC.crashed, rest) rfl]
      rfl

theorem joinFuel_loopHead_drain (q : List Buffer)
    (h : ∀ b ∈ q, b.decodable = true) :
    joinFuel (2 * q.length + 1) (WorkerPC.loopHead, q) = (WorkerPC.finished, []) := by
  induction q with
  | nil => decide
  | cons b rest ih =>
    have hb : b.decodable = true := h b (List.mem_cons_self b rest)
    have hrest : ∀ x ∈ rest, x.decodable = true := fun x hx => h x (List.mem_cons_of_mem b hx)
    have h3 : 2 * (b :: rest).length + 1 = 2 * rest.length + 1 + 1 + 1 := by
      simp only [List.length_cons]
      omega
    rw [h3]
    simpa [joinFuel, play_audio_step, isAlive, hb] using ih hrest

theorem join_after_stop_dead (s : WorkerPC × List Buffer) :
    isAlive (join_after_stop s).1 = false := by
  obtain ⟨pc, q⟩ := s
  cases pc with
  | loopHead =>
    show isAlive (joinFuel (2 * q.length + 2) (WorkerPC.loopHead, q)).1 = false
    rw [show 2 * q.length + 2 = 2 * q.length + 1 + 1 by omega,
      joinFuel_add (2 * q.length + 1) 1]
    rw [joinFuel_dead 1 _ (joinFuel_loopHead_dead q)]
    exact joinFuel_loopHead_dead q
  | playing n =>
    show isAlive (joinFuel (2 * q.length + 2) (WorkerPC.playing n, q)).1 = false
    rw [show 2 * q.length + 2 = 2 * q.length + 1 + 1 by omega]
    have hstep : play_audio_step true (WorkerPC.playing n, q) = (WorkerPC.loopHead, q) := by
      simp [play_audio_step]
    calc isAlive (joinFuel (2 * q.length + 1 + 1) (WorkerPC.playing n, q)).1
        = isAlive (joinFuel (2 * q.length + 1) (WorkerPC.loopHead, q)).1 := by
          rw [show 2 * q.length + 1 + 1 = 1 + (2 * q.length + 1) by omega,
            joinFuel_add 1 (2 * q.length + 1)]
          simp [joinFuel, isAlive, hstep]
      _ = false := joinFuel_loopHead_dead q
  | finished =>
    show isAlive (joinFuel (2 * q.length + 2) (WorkerPC.finished, q)).1 = false
    rw [joinFuel_dead (2 * q.length + 2) (WorkerPC.finished, q) rfl]
    rfl
  | crashed =>
    show isAlive (joinFuel (2 * q.length + 2) (WorkerPC.crashed, q)).1 = false
    rw [joinFuel_dead (2 * q.length + 2) (WorkerPC.crashed, q) rfl]
    rfl

theorem join_after_stop_drain (pc : WorkerPC) (q : List Buffer)
    (halive : isAlive pc = true) (h : ∀ b ∈ q, b.decodable = true) :
    join_after_stop (pc, q) = (WorkerPC.finished, []) := by
  cases pc with
  | loopHead =>
    show joinFuel (2 * q.length + 2) (WorkerPC.loopHead, q) = (WorkerPC.finished, [])
    rw [show 2 * q.length + 2 = 2 * q.length + 1 + 1 by omega,
      joinFuel_add (2 * q.length + 1) 1, joinFuel_loopHead_drain q h]
    exact joinFuel_dead 1 _ rfl
  | playing n =>
    show joinFuel (2 * q.length + 2) (WorkerPC.playing n, q) = (WorkerPC.finished, [])
    rw [show 2 * q.length + 2 = 1 + (2 * q.length + 1) by omega,
      joinFuel_add 1 (2 * q.length + 1)]
    have hstep : play_audio_step true (WorkerPC.playing n, q) = (WorkerPC.loopHead, q) := by
      simp [play_audio_step]
    have h1 : joinFuel 1 (WorkerPC.playing n, q) = (WorkerPC.loopHead, q) := by
      simp [joinFuel, isAlive, hstep]
    rw [h1]
    exact joinFuel_loopHead_drain q h
  | finished => simp [isAlive] at halive
  | crashed => simp [isAlive] at halive

/-- The observable state of one AudioPlayer object: the shared stop_flag and
queue, the thread currently referenced by self.play_thread (none models
play_thread is None), and the program counters of all worker threads that were
spawned earlier and whose reference was dropped. The graveyard exists only so
that "never two concurrently live workers" is a statement about every thread
ever spawned, not just the referenced one. -/
structure AudioPlayerSt where
  stopFlag : Bool
  queue : List Buffer
  cur : Option WorkerPC
  graveyard : List WorkerPC
deriving DecidableEq

/-- AudioPlayer.__init__: no thread, stop_flag False, empty queue. -/
def initPlayer : AudioPlayerSt :=
  { stopFlag := false, queue := [], cur := none, graveyard := [] }

/-- AudioPlayer.start_playing: set stop_flag to False, put the buffer on the
queue, and if play_thread is None or the referenced thread is no longer
alive, spawn a fresh worker (the old dead thread object, if any, is
dropped). -/
def start_playing (sys : AudioPlayerSt) (b : Buffer) : AudioPlayerSt :=
  match sys.cur with
  | none =>
    { stopFlag := false, queue := sys.queue ++ [b],
      cur := some WorkerPC.loopHead, graveyard := sys.graveyard }
  | some pc =>
    if isAlive pc then
      { stopFlag := false, queue := sys.queue ++ [b],
        cur := some pc, graveyard := sys.graveyard }
    else
      { stopFlag := false, queue := sys.queue ++ [b],
        cur := some WorkerPC.loopHead, graveyard := pc :: sys.graveyard }

/-- AudioPlayer.stop_playing: if play_thread exists and is alive, set
stop_flag to True, join the worker (run it to termination) and set
play_thread to None; otherwise do nothing. -/
def stop_playing (sys : AudioPlayerSt) : AudioPlayerSt :=
  match sys.cur with
  | none => sys
  | some pc =>
    if isAlive pc then
      { stopFlag := true,
        queue := (join_after_stop (pc, sys.queue)).2,
        cur := none,
        graveyard := (join_after_stop (pc, sys.queue)).1 :: sys.graveyard }
    else sys

/-- One scheduling step of the referenced worker thread (a no-op when no
thread is referenced or the thread is dead). -/
def worker_tick (sys : AudioPlayerSt) : AudioPlayerSt :=
  match sys.cur with
  | none => sys
  | some pc =>
    { sys with
      cur := some (play_audio_step sys.stopFlag (pc, sys.queue)).1,
      queue := (play_audio_step sys.stopFlag (pc, sys.queue)).2 }

/-- The interleaved history of an AudioPlayer: calls made by the receive task
(enq = start_playing, halt = stop_playing) interleaved with scheduling steps
of the worker thread. -/
inductive PlayerEv where
  | enq (b : Buffer)
  | halt
  | tick
deriving DecidableEq

def applyEv (sys : AudioPlayerSt) : PlayerEv → AudioPlayerSt
  | PlayerEv.enq b => start_playing sys b
  | PlayerEv.halt => stop_playing sys
  | PlayerEv.tick => worker_tick sys

def runEvents (evs : List PlayerEv) : AudioPlayerSt :=
  evs.foldl applyEv initPlayer

/-- Number of live playback workers, over every thread ever spawned. -/
def liveCount (sys : AudioPlayerSt) : Nat :=
  (match sys.cur with
   | none => 0
   | some pc => if isAlive pc then 1 else 0)
  + (sys.graveyard.filter (fun pc => isAlive pc)).length

/-- The guard of start_playing: a fresh worker is spawned exactly when
play_thread is None or the referenced thread is dead. -/
def spawnsFresh (sys : AudioPlayerSt) : Bool :=
  match sys.cur with
  | none => true
  | some pc => !(isAlive pc)

/-- Every dropped worker thread is dead. -/
def GraveDead (sys : AudioPlayerSt) : Prop :=
  ∀ pc ∈ sys.graveyard, isAlive pc = false

theorem graveDead_start (sys : AudioPlayerSt) (b : Buffer) (h : GraveDead sys) :
    GraveDead (start_playing sys b) := by
  cases hc : sys.cur with
  | none => simpa [start_playing, hc, GraveDead] using h
  | some pc =>
    cases hal : isAlive pc with
    | true => simpa [start_playing, hc, hal, GraveDead] using h
    | false =>
      intro x hx
      simp only [start_playing, hc, hal, Bool.false_eq_true, if_false,
        List.mem_cons] at hx
      rcases hx with hx | hx
      · rw [hx]; exact hal
      · exact h x hx

theorem graveDead_stop (sys : AudioPlayerSt) (h : GraveDead sys) :
    GraveDead (stop_playing sys) := by
  cases hc : sys.cur with
  | none => simpa [stop_playing, hc] using h
  | some pc =>
    cases hal : isAlive pc with
    | true =>
      intro x hx
      simp only [stop_playing, hc, hal, if_true, List.mem_cons] at hx
      rcases hx with hx | hx
      · rw [hx]; exact join_after_stop_dead (pc, sys.queue)
      · exact h x hx
    | false => simpa [stop_playing, hc, hal] using h

theorem graveDead_tick (sys : AudioPlayerSt) (h : GraveDead sys) :
    GraveDead (worker_tick sys) := by
  cases hc : sys.cur with
  | none => simpa [worker_tick, hc] using h
  | some pc =>
    intro x hx
    simp only [worker_tick, hc] at hx
    exact h x hx

theorem graveDead_applyEv (sys : AudioPlayerSt) (e : PlayerEv) (h : GraveDead sys) :
    GraveDead (applyEv sys e) := by
  cases e with
  | enq b => exact graveDead_start sys b h
  | halt => exact graveDead_stop sys h
  | tick => exact graveDead_tick sys h

theorem graveDead_foldl (evs : List PlayerEv) (sys : AudioPlayerSt) (h : GraveDead sys) :
    GraveDead (evs.foldl applyEv sys) := by
  induction evs generalizing sys with
  | nil => exact h
  | cons e evs ih => exact ih (applyEv sys e) (graveDead_applyEv sys e h)

theorem graveDead_runEvents (evs : List PlayerEv) : GraveDead (runEvents evs) :=
  graveDead_foldl evs initPlayer (fun pc hpc => absurd hpc (List.not_mem_nil pc))

theorem liveCount_le_one (sys : AudioPlayerSt) (h : GraveDead sys) :
    liveCount sys ≤ 1 := by
  have hfil : sys.graveyard.filter (fun pc => isAlive pc) = [] := by
    refine List.filter_eq_nil_iff.mpr ?_
    intro pc hpc
    simp [h pc hpc]
  unfold liveCount
  rw [hfil]
  cases sys.cur with
  | none => simp
  | some pc => cases hal : isAlive pc <;> simp [hal]

/-- Events allowed in a history of enqueues of decodable buffers interleaved
with worker scheduling steps, with no intervening stop. -/
def isEnqOrTick : PlayerEv → Bool
  | PlayerEv.enq b => b.decodable
  | PlayerEv.halt => false
  | PlayerEv.tick => true

/-- Invariant holding along any history of decodable enqueues and worker
steps: the stop flag stays down, the queue holds only decodable buffers,
every dropped thread is dead, the queue is empty while no thread was ever
spawned, and the referenced thread (if any) is alive. -/
structure EnqInv (sys : AudioPlayerSt) : Prop where
  flag : sys.stopFlag = false
  qdec : ∀ b ∈ sys.queue, b.decodable = true
  grave : GraveDead sys
  curq : sys.cur = none → sys.queue = []
  curAlive : ∀ pc, sys.cur = some pc → isAlive pc = true

theorem enqInv_init : EnqInv initPlayer := by
  refine ⟨rfl, ?_, ?_, fun _ => rfl, ?_⟩
  · intro b hb; exact absurd hb (List.not_mem_nil b)
  · intro pc hpc; exact absurd hpc (List.not_mem_nil pc)
  · intro pc hpc; exact absurd hpc (by simp [initPlayer])

theorem enqInv_start (sys : AudioPlayerSt) (b : Buffer) (hinv : EnqInv sys)
    (hb : b.decodable = true) : EnqInv (start_playing sys b) := by
  have hq : ∀ x ∈ sys.queue ++ [b], x.decodable = true := by
    intro x hx
    rcases List.mem_append.mp hx with hx | hx
    · exact hinv.qdec x hx
    · rw [List.mem_singleton.mp hx]; exact hb
  cases hc : sys.cur with
  | none =>
    have heq : start_playing sys b =
        { stopFlag := false, queue := sys.queue ++ [b],
          cur := some WorkerPC.loopHead, graveyard := sys.graveyard } := by
      simp [start_playing, hc]
    rw [heq]
    refine ⟨rfl, hq, ?_, ?_, ?_⟩
    · intro x hx; exact hinv.grave x hx
    · intro h; exact Option.noConfusion h
    · intro pc hpc
      rw [← Option.some.inj hpc]
      rfl
  | some pc0 =>
    have hal : isAlive pc0 = true := hinv.curAlive pc0 hc
    have heq : start_playing sys b =
        { stopFlag := false, queue := sys.queue ++ [b],
          cur := some pc0, graveyard := sys.graveyard } := by
      simp [start_playing, hc, hal]
    rw [heq]
    refine ⟨rfl, hq, ?_, ?_, ?_⟩
    · intro x hx; exact hinv.grave x hx
    · intro h; exact Option.noConfusion h
    · intro pc hpc
      rw [← Option.some.inj hpc]
      exact hal

theorem enqInv_tick (sys : AudioPlayerSt) (hinv : EnqInv sys) :
    EnqInv (worker_tick sys) := by
  cases hc : sys.cur with
  | none =>
    have : worker_tick sys = sys := by simp [worker_tick, hc]
    rw [this]; exact hinv
  | some pc =>
    have hal : isAlive pc = true := hinv.curAlive pc hc
    have hflag : sys.stopFlag = false := hinv.flag
    have hstep : ∃ pc' q', play_audio_step sys.stopFlag (pc, sys.queue) = (pc', q') ∧
        isAlive pc' = true ∧ (∀ x ∈ q', x.decodable = true) := by
      rw [hflag]
      cases pc with
      | loopHead =>
        cases hq : sys.queue with
        | nil => exact ⟨WorkerPC.loopHead, [], by simp [play_audio_step], rfl, by simp⟩
        | cons b rest =>
          have hb : b.decodable = true := hinv.qdec b (by rw [hq]; exact List.mem_cons_self b rest)
          refine ⟨WorkerPC.playing b.duration, rest, by simp [play_audio_step, hb], rfl, ?_⟩
          intro x hx
          exact hinv.qdec x (by rw [hq]; exact List.mem_cons_of_mem b hx)
      | playing n =>
        cases n with
        | zero => exact ⟨WorkerPC.loopHead, sys.queue, by simp [play_audio_step], rfl, hinv.qdec⟩
        | succ m =>
          exact ⟨WorkerPC.playing m, sys.queue, by simp [play_audio_step], rfl, hinv.qdec⟩
      | finished => exact absurd hal (by simp [isAlive])
      | crashed => exact absurd hal (by simp [isAlive])
    obtain ⟨pc', q', hpq, hal', hq'⟩ := hstep
    have heq : worker_tick sys =
        { stopFlag := sys.stopFlag, queue := q',
          cur := some pc', graveyard := sys.graveyard } := by
      simp [worker_tick, hc, hpq]
    rw [heq]
    refine ⟨hinv.flag, hq', ?_, ?_, ?_⟩
    · intro x hx; exact hinv.grave x hx
    · intro h; exact Option.noConfusion h
    · intro pc1 hpc1
      rw [← Option.some.inj hpc1]
      exact hal'

theorem enqInv_applyEv (sys : AudioPlayerSt) (e : PlayerEv) (hinv : EnqInv sys)
    (he : isEnqOrTick e = true) : EnqInv (applyEv sys e) := by
  cases e with
  | enq b => exact enqInv_start sys b hinv he
  | halt => exact absurd he (by simp [isEnqOrTick])
  | tick => exact enqInv_tick sys hinv

theorem enqInv_foldl (evs : List PlayerEv) (sys : AudioPlayerSt) (hinv : EnqInv sys)
    (h : ∀ e ∈ evs, isEnqOrTick e = true) : EnqInv (evs.foldl applyEv sys) := by
  induction evs generalizing sys with
  | nil => exact hinv
  | cons e evs ih =>
    exact ih (applyEv sys e)
      (enqInv_applyEv sys e hinv (h e (List.mem_cons_self e evs)))
      (fun x hx => h x (List.mem_cons_of_mem e hx))

theorem enqInv_runEvents (evs : List PlayerEv)
    (h : ∀ e ∈ evs, isEnqOrTick e = true) : EnqInv (runEvents evs) :=
  enqInv_foldl evs initPlayer enqInv_init h

/-- C1 (amended): for every history of start_playing calls enqueueing
decodable buffers, interleaved arbitrarily with worker scheduling steps, a
subsequent stop_playing call joins the worker to termination and, when it
returns, the playback queue is empty, play_thread is None, and no playback
worker is live. -/
theorem stop_playing_drains_and_joins (evs : List PlayerEv)
    (h : ∀ e ∈ evs, isEnqOrTick e = true) :
    (stop_playing (runEvents evs)).queue = [] ∧
    (stop_playing (runEvents evs)).cur = none ∧
    liveCount (stop_playing (runEvents evs)) = 0 := by
  have hinv := enqInv_runEvents evs h
  revert hinv
  generalize runEvents evs = sys
  intro hinv
  cases hc : sys.cur with
  | none =>
    have heq : stop_playing sys = sys := by simp [stop_playing, hc]
    rw [heq]
    refine ⟨hinv.curq hc, hc, ?_⟩
    have hfil : sys.graveyard.filter (fun pc => isAlive pc) = [] :=
      List.filter_eq_nil_iff.mpr (fun pc hpc => by simp [hinv.grave pc hpc])
    simp [liveCount, hc, hfil]
  | some pc =>
    have hal : isAlive pc = true := hinv.curAlive pc hc
    have hjoin : join_after_stop (pc, sys.queue) = (WorkerPC.finished, []) :=
      join_after_stop_drain pc sys.queue hal hinv.qdec
    have heq : stop_playing sys =
        { stopFlag := true, queue := [], cur := none,
          graveyard := WorkerPC.finished :: sys.graveyard } := by
      simp [stop_playing, hc, hal, hjoin]
    rw [heq]
    refine ⟨rfl, rfl, ?_⟩
    have hfil : (WorkerPC.finished :: sys.graveyard).filter (fun pc => isAlive pc) = [] := by
      refine List.filter_eq_nil_iff.mpr ?_
      intro x hx
      rcases List.mem_cons.mp hx with hx | hx
      · simp [hx, isAlive]
      · simp [hinv.grave x hx]
    simp [liveCount, hfil]

/-- C1 witness: a concrete history of two decodable enqueues and a worker
step, then stop_playing. -/
theorem stop_playing_drains_and_joins_witness :
    (stop_playing (runEvents [PlayerEv.enq ⟨true, 2⟩, PlayerEv.tick,
        PlayerEv.enq ⟨true, 1⟩])).queue = [] ∧
    (stop_playing (runEvents [PlayerEv.enq ⟨true, 2⟩, PlayerEv.tick,
        PlayerEv.enq ⟨true, 1⟩])).cur = none ∧
    liveCount (stop_playing (runEvents [PlayerEv.enq ⟨true, 2⟩, PlayerEv.tick,
        PlayerEv.enq ⟨true, 1⟩])) = 0 :=
  stop_playing_drains_and_joins
    [PlayerEv.enq ⟨true, 2⟩, PlayerEv.tick, PlayerEv.enq ⟨true, 1⟩] (by decide)

/-- C1 counterexample to the claim as stated (arbitrary enqueues): when an
undecodable buffer sits in front of a decodable one, the worker dies on the
decode error during the join and stop_playing returns with the decodable
buffer still in the queue, so the queue is not empty after stop(). -/
theorem stop_playing_corrupt_cex :
    (stop_playing (runEvents [PlayerEv.enq ⟨false, 0⟩, PlayerEv.enq ⟨true, 3⟩])).queue =
      [⟨true, 3⟩] ∧
    (stop_playing (runEvents [PlayerEv.enq ⟨false, 0⟩, PlayerEv.enq ⟨true, 3⟩])).queue ≠
      [] := by
  decide

/-- C3: over every interleaving of start_playing, stop_playing and worker
scheduling steps, at most one playback worker is live at any time, and the
start_playing guard observes a fresh spawn only in states with no live
worker at all. -/
theorem single_worker_invariant (evs : List PlayerEv) :
    liveCount (runEvents evs) ≤ 1 ∧
    (spawnsFresh (runEvents evs) = true → liveCount (runEvents evs) = 0) := by
  have hg := graveDead_runEvents evs
  constructor
  · exact liveCount_le_one _ hg
  · intro hs
    have hfil : (runEvents evs).graveyard.filter (fun pc => isAlive pc) = [] :=
      List.filter_eq_nil_iff.mpr (fun pc hpc => by simp [hg pc hpc])
    unfold liveCount
    rw [hfil]
    cases hc : (runEvents evs).cur with
    | none => simp
    | some pc =>
      simp only [spawnsFresh, hc] at hs
      cases hal : isAlive pc with
      | true => rw [hal] at hs; simp at hs
      | false => simp [hal]

/-- C3 witness: the invariant at the concrete history enqueue-then-stop. -/
theorem single_worker_invariant_witness :
    liveCount (runEvents [PlayerEv.enq ⟨true, 0⟩, PlayerEv.halt]) ≤ 1 ∧
    liveCount (runEvents [PlayerEv.enq ⟨true, 0⟩, PlayerEv.halt]) = 0 :=
  ⟨(single_worker_invariant [PlayerEv.enq ⟨true, 0⟩, PlayerEv.halt]).1,
   (single_worker_invariant [PlayerEv.enq ⟨true, 0⟩, PlayerEv.halt]).2 (by decide)⟩

/-- C4 (amended): dequeueing an undecodable buffer raises out of
WaveObject.from_wave_file with no handler around it, so the worker thread
dies at once with the rest of the queue left unplayed; nothing is skipped and
the loop does not continue. -/
theorem corrupt_buffer_kills_worker (flag : Bool) (b : Buffer) (rest : List Buffer)
    (h : b.decodable = false) :
    play_audio_step flag (WorkerPC.loopHead, b :: rest) = (WorkerPC.crashed, rest) ∧
    isAlive WorkerPC.crashed = false := by
  refine ⟨?_, rfl⟩
  cases flag <;> simp [play_audio_step, h]

/-- C4 witness: the crash at a concrete undecodable buffer. -/
theorem corrupt_buffer_kills_worker_witness :
    play_audio_step false (WorkerPC.loopHead, [⟨false, 0⟩, ⟨true, 1⟩]) =
      (WorkerPC.crashed, [⟨true, 1⟩]) ∧
    isAlive WorkerPC.crashed = false :=
  corrupt_buffer_kills_worker false ⟨false, 0⟩ [⟨true, 1⟩] rfl

/-- C4 counterexample: with queue [undecodable, decodable] and no stop
requested, one worker step leaves the thread dead; after any further steps
the decodable buffer is still enqueued and never played, so the worker
terminated precisely because one item failed to decode. -/
theorem corrupt_buffer_not_skipped_cex :
    isAlive (runNoStop 1 (WorkerPC.loopHead, [⟨false, 0⟩, ⟨true, 5⟩])).1 = false ∧
    runNoStop 9 (WorkerPC.loopHead, [⟨false, 0⟩, ⟨true, 5⟩]) =
      (WorkerPC.crashed, [⟨true, 5⟩]) := by
  decide

/-- C5 counterexample: with the queue exhausted and no stop requested the
loop condition `not stop_flag or not queue.empty` is still true, get_nowait
raises queue.Empty, and the loop continues: the worker state is a fixpoint
of the step function and the thread is still alive, so the worker does not
terminate on queue exhaustion. -/
theorem exhausted_queue_no_exit_cex :
    play_audio_step false (WorkerPC.loopHead, []) = (WorkerPC.loopHead, []) ∧
    isAlive WorkerPC.loopHead = true := by
  decide

/-- C5 (amended): after the queue empties with no stop pending the worker
never terminates: it busy-polls at the loop head for any number of steps and
stays alive. It exits only through the stop protocol (stop_flag set and
queue drained) or by dying on a decode error. -/
theorem exhausted_queue_worker_spins (n : Nat) :
    runNoStop n (WorkerPC.loopHead, []) = (WorkerPC.loopHead, []) ∧
    isAlive (runNoStop n (WorkerPC.loopHead, [])).1 = true := by
  induction n with
  | zero => exact ⟨rfl, rfl⟩
  | succ n ih =>
    have hstep : play_audio_step false (WorkerPC.loopHead, []) =
        (WorkerPC.loopHead, []) := by
      simp [play_audio_step]
    constructor
    · show runNoStop n (play_audio_step false (WorkerPC.loopHead, [])) =
        (WorkerPC.loopHead, [])
      rw [hstep]
      exact ih.1
    · show isAlive (runNoStop n (play_audio_step false (WorkerPC.loopHead, []))).1 = true
      rw [hstep]
      exact ih.2

/-!
The receive-side dispatcher: the text-frame branch of receive_message,
modelled as the ordered list of calls it performs on one frame. Each
element is one statement executed by the dispatcher, in program order;
stop_playing is synchronous, so the call at an earlier position has
returned before any later element runs.
-/

/-- One call performed by receive_message while handling a frame:
stopPlayback is audio_player.stop_playing(); print text lineEnd is
print(text, end=lineEnd); enqueueWav is audio_player.start_playing on the
decoded payload of a binary frame. -/
inductive DispatchAct where
  | stopPlayback
  | print (text : String) (lineEnd : String)
  | enqueueWav
deriving DecidableEq

/-- Python str.startswith restricted to the characters of the strings (the
markers involved are plain ASCII). -/
def pyStartsWith (s marker : String) : Bool :=
  marker.toList.isPrefixOf s.toList

/-- The `isinstance(message, str)` branch of receive_message: a frame equal
to the turn-end marker prints the prompt; a frame starting with the
interrupt-and-announce marker first stops playback and then prints the
whole message with a trailing newline; any other frame is printed verbatim
with no line terminator. -/
def receive_message_text (m : String) : List DispatchAct :=
  if m = "[end]\n" then [DispatchAct.print "\nYou: " ""]
  else if pyStartsWith m "[+]" then
    [DispatchAct.stopPlayback, DispatchAct.print m "\n"]
  else [DispatchAct.print m ""]

theorem interrupt_not_turn_end (m : String) (h : pyStartsWith m "[+]" = true) :
    m ≠ "[end]\n" := by
  intro he
  rw [he] at h
  exact absurd h (by decide)

/-- C2: for every text frame beginning with the interrupt-and-announce
marker, the dispatcher performs exactly two calls: stop_playing at position
0 and the display at position 1, so the (synchronous, blocking) stop has
returned strictly before any text of the frame is displayed. -/
theorem interrupt_stop_precedes_display (m : String)
    (h : pyStartsWith m "[+]" = true) :
    (receive_message_text m).get? 0 = some DispatchAct.stopPlayback ∧
    (receive_message_text m).get? 1 = some (DispatchAct.print m "\n") ∧
    (receive_message_text m).length = 2 := by
  have hne : m ≠ "[end]\n" := interrupt_not_turn_end m h
  simp [receive_message_text, hne, h]

/-- C2 witness: the concrete frame from the spec scenario. -/
theorem interrupt_stop_precedes_display_witness :
    (receive_message_text "[+]Done talking").get? 0 = some DispatchAct.stopPlayback ∧
    (receive_message_text "[+]Done talking").get? 1 =
      some (DispatchAct.print "[+]Done talking" "\n") ∧
    (receive_message_text "[+]Done talking").length = 2 :=
  interrupt_stop_precedes_display "[+]Done talking" (by decide)

/-- C7 counterexample: for the frame from the spec scenario the dispatcher
displays the whole frame, marker included, not the remainder after the
marker. -/
theorem interrupt_display_keeps_marker_cex :
    receive_message_text "[+]Done talking" =
      [DispatchAct.stopPlayback, DispatchAct.print "[+]Done talking" "\n"] ∧
    "[+]Done talking" ≠ "Done talking" := by
  decide

/-- C7 (amended): for every text frame beginning with the
interrupt-and-announce marker, the dispatcher displays the full frame text
including the marker, followed by a newline (print(message, end=\x22\n\x22)). -/
theorem interrupt_display_full_frame (m : String)
    (h : pyStartsWith m "[+]" = true) :
    receive_message_text m =
      [DispatchAct.stopPlayback, DispatchAct.print m "\n"] := by
  have hne : m ≠ "[end]\n" := interrupt_not_turn_end m h
  simp [receive_message_text, hne, h]

/-- C7 witness: the amended display behaviour at a concrete frame. -/
theorem interrupt_display_full_frame_witness :
    receive_message_text "[+]ok" =
      [DispatchAct.stopPlayback, DispatchAct.print "[+]ok" "\n"] :=
  interrupt_display_full_frame "[+]ok" (by decide)

/-- C8: the exact turn-end frame produces exactly one prompt print and
nothing else: no playback call in either direction and no display of the
marker text. -/
theorem turn_end_prompt_only :
    receive_message_text "[end]\n" = [DispatchAct.print "\nYou: " ""] ∧
    (receive_message_text "[end]\n").count (DispatchAct.print "\nYou: " "") = 1 ∧
    DispatchAct.stopPlayback ∉ receive_message_text "[end]\n" ∧
    DispatchAct.enqueueWav ∉ receive_message_text "[end]\n" ∧
    DispatchAct.print "[end]\n" "" ∉ receive_message_text "[end]\n" ∧
    DispatchAct.print "[end]\n" "\n" ∉ receive_message_text "[end]\n" := by
  decide

/-- C10: a text frame that is not exactly the six-character turn-end marker
and does not begin with the interrupt marker is displayed verbatim with no
trailing line terminator, and nothing else happens. -/
theorem plain_text_displayed_verbatim (m : String) (h1 : m ≠ "[end]\n")
    (h2 : pyStartsWith m "[+]" = false) :
    receive_message_text m = [DispatchAct.print m ""] := by
  simp [receive_message_text, h1, h2]

/-- C10 witness: the frame that equals the marker minus its trailing
newline is plain displayable text, not a control frame. -/
theorem plain_text_displayed_verbatim_witness :
    receive_message_text "[end]" = [DispatchAct.print "[end]" ""] :=
  plain_text_displayed_verbatim "[end]" (by decide) (by decide)

/-!
Mode selection in start_client.
-/

/-- The producer task start_client spawns: handle_audio (microphone
capture) or handle_text (keyboard input). -/
inductive SendTask where
  | capture
  | textInput
deriving DecidableEq

/-- Python str.lower on the characters of the string (the mode strings
compared against are plain ASCII). -/
def pyLower (s : String) : String :=
  String.mk (s.toList.map Char.toLower)

/-- The mode branch of start_client: `if mode.lower() == 'a'` spawns
handle_audio, else handle_text; exactly one send task is created. -/
def select_send_task (mode : String) : SendTask :=
  if pyLower mode = "a" then SendTask.capture else SendTask.textInput

/-- C9 counterexample: the mode string A is a value other than a, yet it
selects the capture producer because the code lowercases the mode before
comparing. -/
theorem mode_uppercase_selects_capture_cex :
    select_send_task "A" = SendTask.capture ∧ "A" ≠ "a" := by
  decide

/-- C9 (amended): the mode string selects the capture producer exactly when
its lowercased form equals a; every other value selects the text producer;
one producer per session either way. -/
theorem mode_selects_send_task (mode : String) :
    (pyLower mode = "a" → select_send_task mode = SendTask.capture) ∧
    (pyLower mode ≠ "a" → select_send_task mode = SendTask.textInput) := by
  constructor <;> intro h <;> simp [select_send_task, h]

/-- C9 witness: both branches at concrete mode strings. -/
theorem mode_selects_send_task_witness :
    select_send_task "A" = SendTask.capture ∧
    select_send_task "t" = SendTask.textInput :=
  ⟨(mode_selects_send_task "A").1 (by decide),
   (mode_selects_send_task "t").2 (by decide)⟩

/-!
The orchestrator join: start_client runs the two session tasks and then
executes `await asyncio.gather(receive_task, send_task)`.
-/

/-- How one of the two session tasks ends: it returns normally, it raises,
or it never finishes on its own. -/
inductive TaskOutcome where
  | completed
  | failed
  | runsForever
deriving DecidableEq

/-- What the await of the two-task join produces: whether the awaiting
orchestrator ever resumes (normally or by a propagated exception), whether
an exception is propagated to it, and whether the join cancelled the other,
not-yet-finished task. -/
structure JoinBehavior where
  orchestratorResumes : Bool
  errorPropagated : Bool
  siblingCancelled : Bool
deriving DecidableEq

/-- Join semantics of `await asyncio.gather(t1, t2)` with the default
return_exceptions=False, taken from the asyncio documentation of the
external event loop: if a task raises, the first raised exception is
immediately propagated to the awaiter and the other task is NOT cancelled
and keeps running; otherwise gather resumes the awaiter only once ALL tasks
have completed, so it never resumes while one task runs forever; gather
itself never cancels a sibling on first completion. -/
def gather_two (t1 t2 : TaskOutcome) : JoinBehavior :=
  if t1 = TaskOutcome.failed ∨ t2 = TaskOutcome.failed then
    { orchestratorResumes := true, errorPropagated := true, siblingCancelled := false }
  else if t1 = TaskOutcome.completed ∧ t2 = TaskOutcome.completed then
    { orchestratorResumes := true, errorPropagated := false, siblingCancelled := false }
  else
    { orchestratorResumes := false, errorPropagated := false, siblingCancelled := false }

/-- Modelled from the spec: the supervision §4.5 describes for the
orchestrator join, stated from the words of the spec for comparison with
gather_two. It waits for either task to complete (including error) and on
first completion initiates cancellation of the other, then awaits its
cleanup; so whenever at least one task finishes, the orchestrator resumes
with the sibling cancelled. -/
def spec_supervise_two (t1 t2 : TaskOutcome) : JoinBehavior :=
  if t1 = TaskOutcome.runsForever ∧ t2 = TaskOutcome.runsForever then
    { orchestratorResumes := false, errorPropagated := false, siblingCancelled := false }
  else
    { orchestratorResumes := true,
      errorPropagated := decide (t1 = TaskOutcome.failed ∨ t2 = TaskOutcome.failed),
      siblingCancelled := true }

/-- receive_message on a connection closed mid-receive: the
ConnectionClosedError raised by recv is caught, a diagnostic is printed and
the loop breaks, so the receive task completes normally. -/
def receive_outcome_on_closure : TaskOutcome := TaskOutcome.completed

/-- handle_text and handle_audio are `while True` loops: absent a send
error they never finish on their own. -/
def send_outcome_no_error : TaskOutcome := TaskOutcome.runsForever

/-- The join start_client actually performs over the receive task and the
send task. -/
def start_client_join (receive send : TaskOutcome) : JoinBehavior :=
  gather_two receive send

/-- C6 counterexample: when the connection closes mid-receive the receive
task completes normally and the producer keeps running; the gather that
start_client awaits cancels nothing and never resumes the orchestrator, in
contrast to the supervision the claim describes. -/
theorem orchestrator_no_cancellation_cex :
    (start_client_join receive_outcome_on_closure send_outcome_no_error).siblingCancelled =
      false ∧
    (start_client_join receive_outcome_on_closure send_outcome_no_error).orchestratorResumes =
      false ∧
    spec_supervise_two receive_outcome_on_closure send_outcome_no_error =
      { orchestratorResumes := true, errorPropagated := false, siblingCancelled := true } ∧
    start_client_join receive_outcome_on_closure send_outcome_no_error ≠
      spec_supervise_two receive_outcome_on_closure send_outcome_no_error := by
  decide

/-- C6 (amended): start_client joins the two tasks with asyncio.gather,
which never initiates cancellation of the sibling task for any pair of
outcomes; in particular, after a connection closure mid-receive the
orchestrator keeps waiting on the still-running producer, so the session
does not terminate by itself. -/
theorem start_client_join_never_cancels (receive send : TaskOutcome) :
    (start_client_join receive send).siblingCancelled = false ∧
    (start_client_join receive_outcome_on_closure send_outcome_no_error).orchestratorResumes =
      false := by
  refine ⟨?_, by decide⟩
  cases receive <;> cases send <;> decide

end RealCharClient
